import Mathlib

/-!
# Verification of the exo placement engine

Shallow embedding of the placement engine of the `exo` repository:

* `src/exo/master/placement_csp.py` — the CSP shard-placement solver
  (`ConstraintSatisfactionPlacement`) with its greedy fallback;
* `src/exo/master/placement.py` — device scoring (`_compute_device_scores`)
  and the tensor-sharding cycle filter inside `place_instance`;
* `src/exo/shared/gpu_telemetry_aggregator.py` — the aggregator's
  `compute_device_scores` memory-fit formula;
* `src/exo/gpu/telemetry_protocol.py` — `DeviceScorer.score_device`;
* `src/exo/gpu/clustering.py` and `src/exo/gpu/clustering_improved.py`
  — workload distributors and telemetry recording.

Python floats are modelled as `ℚ`, Python ints as `Int`/`ℕ`, dicts keyed by
strings as association lists in insertion order, and raised exceptions as
`Except`/`Option` error values.
-/

namespace Exo

/-! ## placement_csp.py : data types -/

/-- `GPUDevice` as consumed by the CSP solver: only `device_id` and
`memory_available` are read by `placement_csp.py`. -/
structure GPUDevice where
  device_id : String
  memory_available : Int
deriving DecidableEq, Repr

/-- `GPUDeviceScore` (placement_csp.py): the five component scores. -/
structure GPUDeviceScore where
  device_id : String
  compute_score : ℚ
  memory_score : ℚ
  network_score : ℚ
  thermal_score : ℚ
  bandwidth_score : ℚ
deriving DecidableEq, Repr

/-- `GPUDeviceScore.weighted_score`: compute 0.40, memory 0.30, network 0.15,
thermal 0.10, bandwidth 0.05. -/
def GPUDeviceScore.weighted_score (s : GPUDeviceScore) : ℚ :=
  s.compute_score * (40 / 100) + s.memory_score * (30 / 100) +
    s.network_score * (15 / 100) + s.thermal_score * (10 / 100) +
    s.bandwidth_score * (5 / 100)

/-! ## Stable descending sort (Python `list.sort(key=..., reverse=True)`) -/

/-- Insert `x` into a list sorted by descending `key`, after all entries with
a key `≥ key x` that precede it (stable). -/
def insertDescBy {α β : Type} [LinearOrder β] (key : α → β) (x : α) :
    List α → List α
  | [] => [x]
  | y :: ys => if key y ≤ key x then x :: y :: ys else y :: insertDescBy key x ys

/-- Stable insertion sort by descending key, matching Python's stable
`sorted(..., key=key, reverse=True)`. -/
def sortDescBy {α β : Type} [LinearOrder β] (key : α → β) (l : List α) : List α :=
  l.foldr (insertDescBy key) []

theorem insertDescBy_perm {α β : Type} [LinearOrder β] (key : α → β) (x : α)
    (l : List α) : List.Perm (insertDescBy key x l) (x :: l) := by
  induction l with
  | nil => simp [insertDescBy]
  | cons y ys ih =>
    simp only [insertDescBy]
    split
    · exact List.Perm.refl _
    · exact List.Perm.trans (List.Perm.cons y ih) (List.Perm.swap x y ys)

theorem sortDescBy_perm {α β : Type} [LinearOrder β] (key : α → β) (l : List α) :
    List.Perm (sortDescBy key l) l := by
  induction l with
  | nil => exact List.Perm.refl _
  | cons y ys ih =>
    exact List.Perm.trans (insertDescBy_perm key y (sortDescBy key ys))
      (List.Perm.cons y ih)

theorem mem_sortDescBy {α β : Type} [LinearOrder β] (key : α → β) (l : List α)
    (x : α) : x ∈ sortDescBy key l ↔ x ∈ l :=
  (sortDescBy_perm key l).mem_iff

/-! ## placement_csp.py : domains and helpers -/

/-- `next((d for d in devices if d.device_id == did), None)`. -/
def findDevice (devices : List GPUDevice) (did : String) : Option GPUDevice :=
  devices.find? (fun d => d.device_id == did)

/-- `next((s for s in device_scores if s.device_id == did), None)`. -/
def findScore (scores : List GPUDeviceScore) (did : String) : Option GPUDeviceScore :=
  scores.find? (fun s => s.device_id == did)

/-- Sort key used in `_compute_initial_domains`:
`next((s.weighted_score for s in device_scores if s.device_id == did), 0.0)`. -/
def scoreKey (scores : List GPUDeviceScore) (did : String) : ℚ :=
  match findScore scores did with
  | some s => s.weighted_score
  | none => 0

/-- Body of the per-shard loop of `_compute_initial_domains`: devices whose
available memory covers the shard and which have a score with
`memory_score > 0`, in `devices` order. -/
def feasibleDevices (shard_size : Int) (devices : List GPUDevice)
    (scores : List GPUDeviceScore) : List String :=
  devices.filterMap fun device =>
    if device.memory_available < shard_size then none
    else
      match findScore scores device.device_id with
      | some s => if 0 < s.memory_score then some device.device_id else none
      | none => none

/-- `_compute_initial_domains`: feasible devices per shard, sorted by
descending `weighted_score`. -/
def computeInitialDomains (num_shards : ℕ) (shard_sizes : List Int)
    (devices : List GPUDevice) (scores : List GPUDeviceScore) :
    List (List String) :=
  (List.range num_shards).map fun i =>
    sortDescBy (scoreKey scores) (feasibleDevices (shard_sizes.getD i 0) devices scores)

/-! The search state: the partial assignment is a list of length `num_shards`
with `some device_id` at assigned shards (Python's `assignment` dict), the
domains a list of device-id lists (Python's `domains` dict over
`range(num_shards)`). -/

/-- `len(assignment)`: number of assigned shards. -/
def countAssigned (asg : List (Option String)) : ℕ :=
  asg.countP fun x => x.isSome

/-- Running memory total of a device over all currently assigned shards
(the loop at the top of `_propagate_constraints`, and the `device_usage`
entries of `_is_valid_assignment`). -/
def deviceTotalSize (asg : List (Option String)) (sizes : List Int)
    (did : String) : Int :=
  ((asg.zip sizes).map fun p => if p.1 = some did then p.2 else 0).sum

/-- `_is_valid_assignment`: no device whose id occurs in the assignment is
allocated more than its available memory (topology is unused in the source). -/
def isValidAssignment (asg : List (Option String)) (sizes : List Int)
    (devices : List GPUDevice) : Bool :=
  devices.all fun device =>
    !(asg.contains (some device.device_id)) ||
      decide (deviceTotalSize asg sizes device.device_id ≤ device.memory_available)

/-- `_propagate_constraints`: fail if the assigned device is unknown or
overallocated; otherwise remove the assigned device from every unassigned
shard's domain, failing if this empties one of those domains. -/
def propagateConstraints (asg : List (Option String)) (doms : List (List String))
    (assigned_device : String) (sizes : List Int) (devices : List GPUDevice) :
    Option (List (List String)) :=
  match findDevice devices assigned_device with
  | none => none
  | some device =>
    if device.memory_available < deviceTotalSize asg sizes assigned_device then
      none
    else if (doms.zip asg).any (fun p =>
        p.2.isNone && p.1.contains assigned_device &&
          (p.1.filter fun d => d ≠ assigned_device).isEmpty) then
      none
    else
      some ((doms.zip asg).map fun p =>
        if p.2 = none then p.1.filter (fun d => d ≠ assigned_device) else p.1)

/-- Variable selection of `_backtrack`: the unassigned shard with the smallest
domain; Python's `min` keeps the first minimum, i.e. ties break by shard
index. Returns `none` only if every shard is assigned. -/
def selectShard (asg : List (Option String)) (doms : List (List String)) :
    Option ℕ :=
  match (List.range doms.length).filter (fun i => (asg.getD i none).isNone) with
  | [] => none
  | i0 :: rest =>
    some (rest.foldl
      (fun best i =>
        if (doms.getD i []).length < (doms.getD best []).length then i else best)
      i0)

/-- `_backtrack`: backtracking search with constraint propagation.  `fuel`
models the `depth > max_backtrack_depth` cut-off: a call at depth `d` runs
with `fuel = max_backtrack_depth + 1 - d`, so `fuel = 0` is exactly the
depth-limit failure.  The candidate loop over the selected shard's domain is
`findSome?`: the first device whose propagation and recursive search succeed
yields the completed assignment. -/
def backtrackSearch (sizes : List Int) (devices : List GPUDevice) :
    ℕ → List (Option String) → List (List String) → Option (List (Option String))
  | 0, _, _ => none
  | fuel + 1, asg, doms =>
    if countAssigned asg = doms.length then
      if isValidAssignment asg sizes devices then some asg else none
    else
      match selectShard asg doms with
      | none => none
      | some k =>
        (doms.getD k []).findSome? fun did =>
          match propagateConstraints (asg.set k (some did)) doms did sizes devices with
          | some doms2 => backtrackSearch sizes devices fuel (asg.set k (some did)) doms2
          | none => none

/-- `_solve_csp`: build initial domains, fail on any empty domain, then
search from the empty assignment. -/
def solveCsp (maxDepth num_shards : ℕ) (sizes : List Int)
    (devices : List GPUDevice) (scores : List GPUDeviceScore) :
    Option (List (Option String)) :=
  if (computeInitialDomains num_shards sizes devices scores).any List.isEmpty then none
  else backtrackSearch sizes devices (maxDepth + 1) (List.replicate num_shards none)
    (computeInitialDomains num_shards sizes devices scores)

/-! ## placement_csp.py : greedy fallback -/

/-- Python-dict update on an association list: replace the first binding of
the key, else append. -/
def setAssoc {β : Type} : List (String × β) → String → β → List (String × β)
  | [], k, v => [(k, v)]
  | p :: rest, k, v => if p.1 = k then (k, v) :: rest else p :: setAssoc rest k v

/-- Python `dict.get(k, d)`. -/
def lookupAssoc {β : Type} (l : List (String × β)) (k : String) (d : β) : β :=
  ((l.find? fun p => p.1 == k).map Prod.snd).getD d

/-- `_greedy_placement` initialisation: every scored device gets a fictitious
`int(1e12)` bytes of remaining capacity ("Assume large memory" in the
source) — NOT its actual available memory. -/
def initRemaining (scores : List GPUDeviceScore) : List (String × Int) :=
  scores.foldl (fun m s => setAssoc m s.device_id 1000000000000) []

/-- Inner loop of `_greedy_placement`: the first device (in descending
`weighted_score` order) whose tracked remaining capacity covers the shard and
whose score beats the initial `best_score = -1`. -/
def greedyPick (rem : List (String × Int)) (size : Int)
    (sortedScores : List GPUDeviceScore) : Option String :=
  (sortedScores.find? fun s =>
    decide (size ≤ lookupAssoc rem s.device_id 0) &&
      decide (-1 < s.weighted_score)).map GPUDeviceScore.device_id

/-- `device_scores[0].device_id if device_scores else "unknown"`. -/
def fallbackDevice (scores : List GPUDeviceScore) : String :=
  match scores with
  | [] => "unknown"
  | s :: _ => s.device_id

/-- Per-shard loop of `_greedy_placement` over `shard_order`; Python's
`if not best_device` treats both `None` and the empty string as missing. -/
def greedyGo (sizes : List Int) (sortedScores scores : List GPUDeviceScore) :
    List ℕ → List (Option String) → List (String × Int) → List (Option String)
  | [], asg, _ => asg
  | shard :: rest, asg, rem =>
    let size := sizes.getD shard 0
    let best :=
      match greedyPick rem size sortedScores with
      | some d => if d = "" then fallbackDevice scores else d
      | none => fallbackDevice scores
    greedyGo sizes sortedScores scores rest (asg.set shard (some best))
      (setAssoc rem best (lookupAssoc rem best 0 - size))

/-- `_greedy_placement`: shards in descending-size order, each assigned to
the best-scoring device with enough *tracked* (fictitious) capacity. -/
def greedyPlacement (num_shards : ℕ) (sizes : List Int)
    (scores : List GPUDeviceScore) : List (Option String) :=
  greedyGo sizes (sortDescBy GPUDeviceScore.weighted_score scores) scores
    (sortDescBy (fun i => ((sizes.getD i 0 : Int) : ℚ)) (List.range num_shards))
    (List.replicate num_shards none) (initRemaining scores)

/-- The two `ValueError`s raised at the top of `solve_placement`. -/
inductive PlacementError where
  | noDevices
  | shardSizeMismatch
deriving DecidableEq, Repr

/-- `solve_placement`.  `timedOut = true` models the `asyncio.TimeoutError`
branch (wall-clock timeout of the CSP search), which falls back to greedy;
all other control flow is deterministic.  An empty CSP assignment is falsy in
Python (`if assignment:`), hence also falls through to greedy. -/
def solvePlacement (timedOut : Bool) (maxDepth num_shards : ℕ)
    (sizes : List Int) (devices : List GPUDevice)
    (scores : List GPUDeviceScore) :
    Except PlacementError (List (Option String)) :=
  if devices.isEmpty || scores.isEmpty then .error .noDevices
  else if sizes.length ≠ num_shards then .error .shardSizeMismatch
  else if timedOut then .ok (greedyPlacement num_shards sizes scores)
  else
    match solveCsp maxDepth num_shards sizes devices scores with
    | some asg =>
      if asg.any Option.isSome then .ok asg
      else .ok (greedyPlacement num_shards sizes scores)
    | none => .ok (greedyPlacement num_shards sizes scores)

/-! ## placement.py : `_compute_device_scores` -/

/-- The fields of `DeviceGPUState` read by `_compute_device_scores`
(`memory_available_bytes` is a derived int property in the source). -/
structure DeviceGPUState where
  device_id : String
  memory_available_bytes : Int
  compute_utilization_percent : ℚ
  thermal_temperature_c : ℚ
  thermal_throttle_threshold_c : ℚ
deriving DecidableEq, Repr

/-- Memory score of `_compute_device_scores`:
0 if not enough memory, 1 if at least twice the shard size, otherwise
`memory_available / (shard_size_bytes * 2)`. -/
def placementMemoryScore (memory_available shard_size_bytes : Int) : ℚ :=
  if memory_available < shard_size_bytes then 0
  else if shard_size_bytes * 2 ≤ memory_available then 1
  else (memory_available : ℚ) / ((shard_size_bytes : ℚ) * 2)

/-- Compute score of `_compute_device_scores`:
`max(0.0, 1.0 - compute_utilization_percent / 100.0)`. -/
def placementComputeScore (compute_utilization_percent : ℚ) : ℚ :=
  max 0 (1 - compute_utilization_percent / 100)

/-- Thermal score of `_compute_device_scores`, as a function of the margin
`thermal_throttle_threshold_c - thermal_temperature_c`: 0.0 for negative
margin, 0.3 for margin below 5, else `min(1.0, margin / 20.0)`. -/
def placementThermalScore (threshold temperature : ℚ) : ℚ :=
  if threshold - temperature < 0 then 0
  else if threshold - temperature < 5 then 3 / 10
  else min 1 ((threshold - temperature) / 20)

/-- Per-device score record built by `_compute_device_scores`
(network and bandwidth scores are the constant 1.0 in the source). -/
def computeDeviceScoreEntry (dev : DeviceGPUState) (shard_size_bytes : Int) :
    GPUDeviceScore :=
  { device_id := dev.device_id
    compute_score := placementComputeScore dev.compute_utilization_percent
    memory_score := placementMemoryScore dev.memory_available_bytes shard_size_bytes
    network_score := 1
    thermal_score := placementThermalScore dev.thermal_throttle_threshold_c
      dev.thermal_temperature_c
    bandwidth_score := 1 }

/-! ## gpu_telemetry_aggregator.py : `compute_device_scores` memory fit -/

/-- Memory-fit scoring of `GPUTelemetryAggregator.compute_device_scores`:
`min(1, available / (estimated * 2))` when memory suffices, otherwise the
heavy penalty `0.3 * (available / estimated)` — which is positive, not zero,
for positive available memory. -/
def aggMemoryScore (memory_available estimated_memory : ℚ) : ℚ :=
  if estimated_memory ≤ memory_available then
    min 1 (memory_available / (estimated_memory * 2))
  else 3 / 10 * (memory_available / estimated_memory)

/-! ## telemetry_protocol.py : `DeviceScorer.score_device` -/

/-- `GPUMetrics` (telemetry_protocol.py), restricted to the fields read by
the scorer and the telemetry validation. -/
structure GPUMetrics where
  device_id : String
  memory_used_bytes : Int
  memory_total_bytes : Int
  compute_utilization_percent : ℚ
  temperature_celsius : ℚ
deriving DecidableEq, Repr

/-- Temperature penalty of `DeviceScorer.score_device`: 1.0 up to 80 °C,
then `max(0.1, 1.0 - (t - 80) / 40)` — floored at 0.1, never zero. -/
def tempPenalty (temperature_celsius : ℚ) : ℚ :=
  if 80 < temperature_celsius then max (1 / 10) (1 - (temperature_celsius - 80) / 40)
  else 1

/-- `DeviceScorer.score_device`: weighted memory/compute score scaled by the
temperature penalty, clamped to [0, 1]. -/
def score_device (m : GPUMetrics) (max_memory_bytes : Int) : ℚ :=
  if max_memory_bytes = 0 then 0
  else
    max 0 (min 1
      ((6 / 10 * max 0 (min 1
          (((m.memory_total_bytes - m.memory_used_bytes : Int) : ℚ) / (max_memory_bytes : ℚ))) +
        4 / 10 * max 0 (min 1 (1 - m.compute_utilization_percent / 100))) *
        tempPenalty m.temperature_celsius))

/-! ## clustering.py / clustering_improved.py : `distribute_uniform` -/

/-- Per-device chunk size of `distribute_uniform`:
`items_per_device + (1 if i < remainder else 0)`, capped at `max_per_device`
when given.  (The improved variant rejects non-positive caps up front, so
only `ℕ` caps are modelled.) -/
def uniformCount (nItems nDev : ℕ) : Option ℕ → ℕ → ℕ
  | some m, i => min (nItems / nDev + if i < nItems % nDev then 1 else 0) m
  | none, i => nItems / nDev + if i < nItems % nDev then 1 else 0

/-- The contiguous slicing loop: `workload_items[item_idx : item_idx + count]`
with `item_idx` advancing by `count` each iteration. -/
def chunksFromCounts {α : Type} : List α → List ℕ → List (List α)
  | _, [] => []
  | items, c :: cs => items.take c :: chunksFromCounts (items.drop c) cs

/-- `WorkloadDistributor.distribute_uniform` (clustering.py).  The returned
dict is modelled as an association list in `devices` order; duplicate device
ids (which a Python dict would merge) are excluded by hypothesis where it
matters. -/
def distribute_uniform {α : Type} (devices : List String) (items : List α)
    (maxPer : Option ℕ) : List (String × List α) :=
  if devices.isEmpty || items.isEmpty then devices.map fun d => (d, [])
  else
    devices.zip (chunksFromCounts items
      ((List.range devices.length).map (uniformCount items.length devices.length maxPer)))

/-- `WorkloadDistributorImproved.distribute_uniform` (clustering_improved.py):
same slicing, but an empty device list yields `{}` and a non-positive
`max_per_device` raises `ValueError`. -/
def distribute_uniform_improved {α : Type} (devices : List String)
    (items : List α) (maxPer : Option ℕ) :
    Except String (List (String × List α)) :=
  if devices.isEmpty then .ok []
  else
    match maxPer with
    | some m =>
      if m = 0 then .error "max_per_device must be positive"
      else .ok (distribute_uniform devices items (some m))
    | none => .ok (distribute_uniform devices items none)

/-! ## clustering.py / clustering_improved.py : `distribute_by_capacity` -/

/-- Stable ascending insertion sort on strings (Python `sorted` over dict
keys). -/
def insertAsc (x : String) : List String → List String
  | [] => [x]
  | y :: ys => if x ≤ y then x :: y :: ys else y :: insertAsc x ys

/-- `sorted(capacities.keys())`. -/
def sortStrings (l : List String) : List String := l.foldr insertAsc []

/-- `capacities[k]` on the association-list model of the capacities dict. -/
def capLookup (caps : List (String × ℚ)) (k : String) : ℚ :=
  lookupAssoc caps k 0

/-- Per-device item count of `distribute_by_capacity`:
`max(1, int(len(items) * capacity / total))` — note the `max 1`, which
hands one item even to a zero-weight device. -/
def capCount (caps : List (String × ℚ)) (total : ℚ) (nItems : ℕ) (k : String) : ℕ :=
  max 1 (Int.toNat (Int.floor ((nItems : ℚ) * (capLookup caps k / total))))

/-- `max(capacities.keys(), key=lambda d: capacities[d])`: the first key (in
insertion order) carrying the maximal capacity. -/
def largestKey (caps : List (String × ℚ)) : String :=
  match caps with
  | [] => ""
  | p :: rest => (rest.foldl (fun best q => if best.2 < q.2 then q else best) p).1

/-- `distribution[largest_device].extend(leftover)`: extend the chunk of the
first binding of `k`. -/
def extendAt {α : Type} : List (String × List α) → String → List α → List (String × List α)
  | [], _, _ => []
  | (k', ch) :: rest, k, ext =>
    if k' = k then (k', ch ++ ext) :: rest else (k', ch) :: extendAt rest k ext

/-- The main loop of `distribute_by_capacity`: devices in sorted key order
receive contiguous slices of `max(1, int(n * w / total))` items; leftover
items go to the largest-capacity device. -/
def distribute_by_capacity_core {α : Type} (caps : List (String × ℚ))
    (items : List α) : List (String × List α) :=
  extendAt
    ((sortStrings (caps.map Prod.fst)).zip
      (chunksFromCounts items
        ((sortStrings (caps.map Prod.fst)).map
          (capCount caps ((caps.map Prod.snd).sum) items.length))))
    (largestKey caps)
    (items.drop ((sortStrings (caps.map Prod.fst)).map
      (capCount caps ((caps.map Prod.snd).sum) items.length)).sum)

/-- `WorkloadDistributorImproved.distribute_by_capacity`: validates that no
weight is negative and that the total weight is positive, then runs the
shared distribution loop. -/
def distribute_by_capacity_improved {α : Type} (caps : List (String × ℚ))
    (items : List α) : Except String (List (String × List α)) :=
  if caps.isEmpty || items.isEmpty then .ok (caps.map fun p => (p.1, []))
  else if caps.any (fun p => p.2 < 0) then
    .error "All capacity values must be non-negative"
  else if (caps.map Prod.snd).sum ≤ 0 then .error "Total capacity must be positive"
  else .ok (distribute_by_capacity_core caps items)

/-- `WorkloadDistributor.distribute_by_capacity` (clustering.py): same loop
with no validation at all.  (With an all-zero capacity dict the Python code
raises `ZeroDivisionError`; rational division by zero in the model yields
count `max 1 0` instead, so that crash input is out of the model's scope.) -/
def distribute_by_capacity_basic {α : Type} (caps : List (String × ℚ))
    (items : List α) : List (String × List α) :=
  if caps.isEmpty || items.isEmpty then caps.map fun p => (p.1, [])
  else distribute_by_capacity_core caps items

/-! ## clustering_improved.py : telemetry recording with validation -/

/-- Mutable state of `GPUClusteringManagerImproved` relevant to
`record_metrics`: the registered device ids, and the telemetry collector's
current-metrics dict and bounded per-device history. -/
structure TelemetryState where
  registered : List String
  current : List (String × GPUMetrics)
  history : List (String × List GPUMetrics)
  max_history : ℕ
deriving DecidableEq, Repr

/-- Bounded history append (`deque(maxlen=max_history)` in the improved
collector, `list[-max_history:]` in the basic one — identical contents):
newest last, oldest evicted first. -/
def historyAppend (max_history : ℕ) (h : List GPUMetrics) (m : GPUMetrics) :
    List GPUMetrics :=
  if max_history < (h ++ [m]).length then
    (h ++ [m]).drop ((h ++ [m]).length - max_history)
  else h ++ [m]

/-- `TelemetryCollector.record_metrics`: update the current pointer and the
bounded history for the snapshot's device. -/
def collectorRecord (st : TelemetryState) (m : GPUMetrics) : TelemetryState :=
  { st with
    current := setAssoc st.current m.device_id m
    history := setAssoc st.history m.device_id
      (historyAppend st.max_history (lookupAssoc st.history m.device_id []) m) }

/-- The exceptions raised by `GPUClusteringManagerImproved.record_metrics`
(`KeyError` for an unregistered device, `ValueError` for invalid ranges). -/
inductive MetricsError where
  | notRegistered
  | utilizationOutOfRange
  | negativeUsedMemory
  | nonPositiveTotalMemory
  | usedExceedsTotal
  | temperatureBelowAbsoluteZero
deriving DecidableEq, Repr

/-- The validation chain of `GPUClusteringManagerImproved.record_metrics`, in
source order; absolute zero is -273.15 °C = -5463/20. -/
def validateMetrics (registered : List String) (m : GPUMetrics) :
    Option MetricsError :=
  if ¬ registered.contains m.device_id then some .notRegistered
  else if ¬ (0 ≤ m.compute_utilization_percent ∧ m.compute_utilization_percent ≤ 100) then
    some .utilizationOutOfRange
  else if m.memory_used_bytes < 0 then some .negativeUsedMemory
  else if m.memory_total_bytes ≤ 0 then some .nonPositiveTotalMemory
  else if m.memory_total_bytes < m.memory_used_bytes then some .usedExceedsTotal
  else if m.temperature_celsius < -5463 / 20 then some .temperatureBelowAbsoluteZero
  else none

/-- `GPUClusteringManagerImproved.record_metrics`: every check precedes the
collector update, so a raised error leaves the state exactly as it was. -/
def record_metrics_improved (st : TelemetryState) (m : GPUMetrics) :
    TelemetryState × Option MetricsError :=
  match validateMetrics st.registered m with
  | some e => (st, some e)
  | none => (collectorRecord st m, none)

/-! ## placement.py : tensor-sharding cycle filter in `place_instance` -/

/-- The tensor-sharding filter of `place_instance`: keep candidate cycles
whose length divides the model's hidden dimension. -/
def tensorCycleFilter (hidden_size : ℕ) (cycles : List (List ℕ)) :
    List (List ℕ) :=
  cycles.filter fun cycle => hidden_size % cycle.length == 0

/-- The `Sharding.Tensor` branch of `place_instance`: reject models without
tensor support, filter candidate cycles by divisibility, and raise when no
cycle survives. -/
def tensorShardingStep (supports_tensor : Bool) (hidden_size : ℕ)
    (cycles : List (List ℕ)) : Except String (List (List ℕ)) :=
  if !supports_tensor then
    .error "Requested Tensor sharding but this model does not support tensor parallelism"
  else if (tensorCycleFilter hidden_size cycles).isEmpty then
    .error "No tensor sharding found"
  else .ok (tensorCycleFilter hidden_size cycles)

/-! ## Invariant predicates used by the theorems -/

/-- No device id is assigned to two distinct shard indices. -/
def InjAsg (asg : List (Option String)) : Prop :=
  ∀ i j d, asg.getD i none = some d → asg.getD j none = some d → i = j

/-- Every unassigned shard's domain excludes every already-assigned device:
the invariant maintained by `_propagate_constraints`. -/
def ExclAssigned (asg : List (Option String)) (doms : List (List String)) : Prop :=
  ∀ i, i < doms.length → asg.getD i none = none →
    ∀ j d, asg.getD j none = some d → d ∉ doms.getD i []

/-! # Theorems -/

/-! ## Generic helper lemmas -/

theorem findSome?_eq_some_exists {α β : Type} {f : α → Option β} {l : List α}
    {b : β} (h : l.findSome? f = some b) : ∃ a ∈ l, f a = some b := by
  induction l with
  | nil => simp [List.findSome?] at h
  | cons x xs ih =>
    rw [List.findSome?_cons] at h
    cases hfx : f x with
    | some v =>
      rw [hfx] at h
      exact ⟨x, List.mem_cons_self x xs, by rw [hfx]; exact h⟩
    | none =>
      rw [hfx] at h
      obtain ⟨a, ha, hfa⟩ := ih h
      exact ⟨a, List.mem_cons_of_mem x ha, hfa⟩

/-! ## CSP solver: structural lemmas -/

theorem propagate_eq_some {asg : List (Option String)} {doms : List (List String)}
    {did : String} {sizes : List Int} {devices : List GPUDevice}
    {doms2 : List (List String)}
    (h : propagateConstraints asg doms did sizes devices = some doms2) :
    doms2 = (doms.zip asg).map fun p =>
      if p.2 = none then p.1.filter (fun d => d ≠ did) else p.1 := by
  unfold propagateConstraints at h
  cases hfd : findDevice devices did with
  | none => rw [hfd] at h; exact absurd h (by simp)
  | some device =>
    rw [hfd] at h
    dsimp only at h
    split_ifs at h
    exact (Option.some.inj h).symm

theorem propagate_some_length {asg : List (Option String)}
    {doms : List (List String)} {did : String} {sizes : List Int}
    {devices : List GPUDevice} {doms2 : List (List String)}
    (h : propagateConstraints asg doms did sizes devices = some doms2) :
    doms2.length = min doms.length asg.length := by
  rw [propagate_eq_some h, List.length_map, List.length_zip]

theorem backtrackSearch_valid (sizes : List Int) (devices : List GPUDevice) :
    ∀ (fuel : ℕ) (asg doms a : _),
      backtrackSearch sizes devices fuel asg doms = some a →
      isValidAssignment a sizes devices = true := by
  intro fuel
  induction fuel with
  | zero => intro asg doms a h; simp [backtrackSearch] at h
  | succ fuel ih =>
    intro asg doms a h
    rw [backtrackSearch] at h
    split at h
    · split at h
      · cases h; assumption
      · exact absurd h (by simp)
    · cases hsel : selectShard asg doms with
      | none => rw [hsel] at h; exact absurd h (by simp)
      | some k =>
        rw [hsel] at h
        obtain ⟨did, _, hdid⟩ := findSome?_eq_some_exists h
        cases hprop : propagateConstraints (asg.set k (some did)) doms did sizes devices with
        | none => rw [hprop] at hdid; exact absurd hdid (by simp)
        | some doms2 =>
          rw [hprop] at hdid
          exact ih _ _ _ hdid

theorem deviceTotalSize_of_not_assigned {asg : List (Option String)}
    {sizes : List Int} {did : String}
    (h : asg.contains (some did) = false) :
    deviceTotalSize asg sizes did = 0 := by
  unfold deviceTotalSize
  apply List.sum_eq_zero
  intro x hx
  obtain ⟨p, hp, hpx⟩ := List.mem_map.mp hx
  have h1 : p.1 ∈ asg := (List.of_mem_zip hp).1
  have hne : p.1 ≠ some did := by
    intro heq
    rw [heq] at h1
    have : asg.contains (some did) = true := List.elem_eq_true_of_mem h1
    rw [h] at this
    exact Bool.noConfusion this
  simp only [if_neg hne] at hpx
  exact hpx.symm

/-- C1 (amended): every complete assignment found by the CSP backtracking
search of `_solve_csp` respects every device's available memory: the sum of
the sizes of the shards assigned to a device is at most its (nonnegative)
available memory. -/
theorem solveCsp_memory_safe (maxDepth num_shards : ℕ) (sizes : List Int)
    (devices : List GPUDevice) (scores : List GPUDeviceScore)
    (a : List (Option String))
    (h : solveCsp maxDepth num_shards sizes devices scores = some a)
    (device : GPUDevice) (hdev : device ∈ devices)
    (hnn : 0 ≤ device.memory_available) :
    deviceTotalSize a sizes device.device_id ≤ device.memory_available := by
  unfold solveCsp at h
  split at h
  · exact absurd h (by simp)
  · have hvalid := backtrackSearch_valid sizes devices _ _ _ _ h
    unfold isValidAssignment at hvalid
    have := List.all_eq_true.mp hvalid device hdev
    cases hc : a.contains (some device.device_id) with
    | false => rw [deviceTotalSize_of_not_assigned hc]; exact hnn
    | true =>
      rw [hc] at this
      simpa using this

/-- C1 counterexample: with one device of 5 bytes and one 8-byte shard the
CSP domains are empty, `solve_placement` falls back to `_greedy_placement`,
and the returned mapping overallocates the device (8 > 5): the fallback
tracks a fictitious `1e12`-byte capacity instead of real memory. -/
theorem solvePlacement_greedy_overallocates :
    solvePlacement false 100 1 [8] [⟨"a", 5⟩] [⟨"a", 0, 0, 0, 0, 0⟩]
        = .ok [some "a"] ∧
    ¬ deviceTotalSize [some "a"] [8] "a" ≤
        (GPUDevice.mk "a" 5).memory_available :=
  ⟨by with_unfolding_all rfl, by with_unfolding_all decide⟩

/-- C1 witness: a concrete successful CSP run (three 20-byte devices, three
4-byte shards) whose assignment respects the memory bound of device "a". -/
theorem solveCsp_memory_safe_witness :
    deviceTotalSize [some "a", some "b", some "c"] [4, 4, 4] "a" ≤
      (GPUDevice.mk "a" 20).memory_available :=
  solveCsp_memory_safe 100 3 [4, 4, 4]
    [⟨"a", 20⟩, ⟨"b", 20⟩, ⟨"c", 20⟩]
    [⟨"a", 0, 1, 0, 0, 0⟩, ⟨"b", 0, 1, 0, 0, 0⟩, ⟨"c", 0, 1, 0, 0, 0⟩]
    [some "a", some "b", some "c"]
    (by with_unfolding_all decide) ⟨"a", 20⟩ (by decide) (by decide)

/-! ## CSP solver: completeness -/

theorem getD_set_self {l : List (Option String)} {k : ℕ} (hk : k < l.length)
    (v : Option String) : (l.set k v).getD k none = v := by
  simp [List.getD_eq_getElem?_getD, List.getElem?_set_self hk]

theorem getD_set_ne {l : List (Option String)} {k i : ℕ} (h : k ≠ i)
    (v : Option String) : (l.set k v).getD i none = l.getD i none := by
  simp [List.getD_eq_getElem?_getD, List.getElem?_set_ne h]

theorem getD_mem {l : List (Option String)} {i : ℕ} (h : i < l.length) :
    l.getD i none ∈ l := by
  rw [List.getD_eq_getElem?_getD, List.getElem?_eq_getElem h]
  exact List.getElem_mem h

theorem computeInitialDomains_length (num_shards : ℕ) (sizes : List Int)
    (devices : List GPUDevice) (scores : List GPUDeviceScore) :
    (computeInitialDomains num_shards sizes devices scores).length = num_shards := by
  unfold computeInitialDomains
  rw [List.length_map, List.length_range]

theorem backtrackSearch_complete (sizes : List Int) (devices : List GPUDevice) :
    ∀ (fuel : ℕ) (asg doms a : _), asg.length = doms.length →
      backtrackSearch sizes devices fuel asg doms = some a →
      countAssigned a = doms.length ∧ a.length = doms.length := by
  intro fuel
  induction fuel with
  | zero => intro asg doms a _ h; simp [backtrackSearch] at h
  | succ fuel ih =>
    intro asg doms a hlen h
    rw [backtrackSearch] at h
    split at h
    · split at h
      · cases h
        exact ⟨by assumption, hlen⟩
      · exact absurd h (by simp)
    · cases hsel : selectShard asg doms with
      | none => rw [hsel] at h; exact absurd h (by simp)
      | some k =>
        rw [hsel] at h
        obtain ⟨did, _, hdid⟩ := findSome?_eq_some_exists h
        cases hprop : propagateConstraints (asg.set k (some did)) doms did sizes devices with
        | none => rw [hprop] at hdid; exact absurd hdid (by simp)
        | some doms2 =>
          rw [hprop] at hdid
          have hd2 : doms2.length = doms.length := by
            rw [propagate_some_length hprop, List.length_set]
            omega
          have hlen2 : (asg.set k (some did)).length = doms2.length := by
            rw [List.length_set, hd2]
            exact hlen
          have := ih _ _ _ hlen2 hdid
          exact ⟨hd2 ▸ this.1, hd2 ▸ this.2⟩

theorem greedyGo_length (sizes : List Int) (ss scores : List GPUDeviceScore) :
    ∀ (order : List ℕ) (asg : List (Option String)) (rem : List (String × Int)),
      (greedyGo sizes ss scores order asg rem).length = asg.length := by
  intro order
  induction order with
  | nil => intro asg rem; rfl
  | cons shard rest ih =>
    intro asg rem
    rw [greedyGo]
    rw [ih, List.length_set]

theorem greedyGo_isSome (sizes : List Int) (ss scores : List GPUDeviceScore) :
    ∀ (order : List ℕ) (asg : List (Option String)) (rem : List (String × Int)) (i : ℕ),
      (i ∈ order ∧ i < asg.length) ∨ (asg.getD i none).isSome = true →
      ((greedyGo sizes ss scores order asg rem).getD i none).isSome = true := by
  intro order
  induction order with
  | nil =>
    intro asg rem i hi
    rcases hi with ⟨hmem, _⟩ | hs
    · exact absurd hmem (List.not_mem_nil i)
    · exact hs
  | cons shard rest ih =>
    intro asg rem i hi
    rw [greedyGo]
    apply ih
    rcases hi with ⟨hmem, hlt⟩ | hs
    · rcases List.mem_cons.mp hmem with heq | hmem2
      · right
        subst heq
        rw [getD_set_self hlt]
        rfl
      · left
        exact ⟨hmem2, by rw [List.length_set]; exact hlt⟩
    · right
      by_cases hik : shard = i
      · subst hik
        by_cases hlt : shard < asg.length
        · rw [getD_set_self hlt]; rfl
        · rw [List.set_eq_of_length_le (Nat.le_of_not_lt hlt)]
          exact hs
      · rw [getD_set_ne hik]
        exact hs

theorem greedyPlacement_length (n : ℕ) (sizes : List Int)
    (scores : List GPUDeviceScore) : (greedyPlacement n sizes scores).length = n := by
  unfold greedyPlacement
  rw [greedyGo_length, List.length_replicate]

theorem greedyPlacement_isSome (n : ℕ) (sizes : List Int)
    (scores : List GPUDeviceScore) (i : ℕ) (hi : i < n) :
    ((greedyPlacement n sizes scores).getD i none).isSome = true := by
  unfold greedyPlacement
  apply greedyGo_isSome
  left
  refine ⟨?_, ?_⟩
  · rw [mem_sortDescBy]
    exact List.mem_range.mpr hi
  · rw [List.length_replicate]
    exact hi

/-- C2: `solve_placement` either raises a typed failure or returns a
complete assignment: the result has exactly `num_shards` entries and every
shard index below `num_shards` is mapped to some device id — never a partial
mapping.  This covers the CSP branch, the greedy fallback, and the timeout
path alike. -/
theorem solvePlacement_complete (timedOut : Bool) (maxDepth num_shards : ℕ)
    (sizes : List Int) (devices : List GPUDevice) (scores : List GPUDeviceScore)
    (a : List (Option String))
    (h : solvePlacement timedOut maxDepth num_shards sizes devices scores = .ok a) :
    a.length = num_shards ∧ ∀ i < num_shards, (a.getD i none).isSome = true := by
  unfold solvePlacement at h
  split at h
  · exact absurd h (by simp)
  · split at h
    · exact absurd h (by simp)
    · split at h
      · cases h
        exact ⟨greedyPlacement_length _ _ _,
          fun i hi => greedyPlacement_isSome _ _ _ i hi⟩
      · cases hc : solveCsp maxDepth num_shards sizes devices scores with
        | some asg =>
          rw [hc] at h
          dsimp only at h
          unfold solveCsp at hc
          split at hc
          · exact absurd hc (by simp)
          · have hcomplete := backtrackSearch_complete sizes devices _ _ _ _
              (by rw [List.length_replicate, computeInitialDomains_length]) hc
            rw [computeInitialDomains_length] at hcomplete
            by_cases hany : asg.any Option.isSome = true
            · rw [if_pos hany] at h
              cases h
              refine ⟨hcomplete.2, fun i hi => ?_⟩
              have hall : ∀ x ∈ a, Option.isSome x = true := by
                apply List.countP_eq_length.mp
                rw [← countAssigned]
                rw [hcomplete.1, hcomplete.2]
              exact hall _ (getD_mem (hcomplete.2 ▸ hi))
            · rw [if_neg hany] at h
              cases h
              exact ⟨greedyPlacement_length _ _ _,
                fun i hi => greedyPlacement_isSome _ _ _ i hi⟩
        | none =>
          rw [hc] at h
          cases h
          exact ⟨greedyPlacement_length _ _ _,
            fun i hi => greedyPlacement_isSome _ _ _ i hi⟩

/-- C2 witness: a concrete run over three devices and three shards returns
the complete assignment `[a, b, c]`. -/
theorem solvePlacement_complete_witness :
    ([some "a", some "b", some "c"] : List (Option String)).length = 3 ∧
      ∀ i < 3, (([some "a", some "b", some "c"] :
        List (Option String)).getD i none).isSome = true :=
  solvePlacement_complete false 100 3 [4, 4, 4]
    [⟨"a", 20⟩, ⟨"b", 20⟩, ⟨"c", 20⟩]
    [⟨"a", 0, 1, 0, 0, 0⟩, ⟨"b", 0, 1, 0, 0, 0⟩, ⟨"c", 0, 1, 0, 0, 0⟩]
    [some "a", some "b", some "c"] (by with_unfolding_all rfl)

/-! ## CSP solver: one shard per device -/

theorem foldl_min_mem (doms : List (List String)) :
    ∀ (l : List ℕ) (b : ℕ),
      l.foldl (fun best i =>
        if (doms.getD i []).length < (doms.getD best []).length then i else best) b = b ∨
      l.foldl (fun best i =>
        if (doms.getD i []).length < (doms.getD best []).length then i else best) b ∈ l := by
  intro l
  induction l with
  | nil => intro b; left; rfl
  | cons x xs ih =>
    intro b
    rw [List.foldl_cons]
    rcases ih (if (doms.getD x []).length < (doms.getD b []).length then x else b) with
      heq | hmem
    · rw [heq]
      split
      · right; exact List.mem_cons_self _ _
      · left; rfl
    · right; exact List.mem_cons_of_mem x hmem

theorem selectShard_spec {asg : List (Option String)} {doms : List (List String)}
    {k : ℕ} (h : selectShard asg doms = some k) :
    k < doms.length ∧ asg.getD k none = none := by
  unfold selectShard at h
  cases hf : (List.range doms.length).filter (fun i => (asg.getD i none).isNone) with
  | nil => rw [hf] at h; exact absurd h (by simp)
  | cons i0 rest =>
    rw [hf] at h
    have hk := Option.some.inj h
    have hmem : k ∈ (List.range doms.length).filter
        (fun i => (asg.getD i none).isNone) := by
      rw [hf]
      rcases foldl_min_mem doms rest i0 with heq | hm
      · rw [← hk, heq]; exact List.mem_cons_self _ _
      · exact List.mem_cons_of_mem _ (hk ▸ hm)
    have hspec := List.mem_filter.mp hmem
    refine ⟨List.mem_range.mp hspec.1, ?_⟩
    have : (asg.getD k none).isNone = true := by simpa using hspec.2
    exact Option.isNone_iff_eq_none.mp this

theorem pruned_getD {doms : List (List String)} {asg : List (Option String)}
    (did : String) (hlen : doms.length = asg.length) {i : ℕ}
    (hi : i < doms.length) :
    (((doms.zip asg).map fun p =>
        if p.2 = none then p.1.filter (fun d => d ≠ did) else p.1).getD i [])
      = if asg.getD i none = none then (doms.getD i []).filter (fun d => d ≠ did)
        else doms.getD i [] := by
  have hia : i < asg.length := by omega
  have hiz : i < (doms.zip asg).length := by rw [List.length_zip]; omega
  have him : i < ((doms.zip asg).map fun p =>
      if p.2 = none then p.1.filter (fun d => d ≠ did) else p.1).length := by
    rw [List.length_map]; exact hiz
  rw [List.getD_eq_getElem?_getD, List.getElem?_eq_getElem him, Option.getD_some,
    List.getElem_map, List.getElem_zip]
  have h1 : doms.getD i [] = doms[i] := by
    rw [List.getD_eq_getElem?_getD, List.getElem?_eq_getElem hi, Option.getD_some]
  have h2 : asg.getD i none = asg[i] := by
    rw [List.getD_eq_getElem?_getD, List.getElem?_eq_getElem hia, Option.getD_some]
  rw [h1, h2]

theorem backtrackSearch_inj (sizes : List Int) (devices : List GPUDevice) :
    ∀ (fuel : ℕ) (asg doms a : _), asg.length = doms.length →
      InjAsg asg → ExclAssigned asg doms →
      backtrackSearch sizes devices fuel asg doms = some a → InjAsg a := by
  intro fuel
  induction fuel with
  | zero => intro asg doms a _ _ _ h; simp [backtrackSearch] at h
  | succ fuel ih =>
    intro asg doms a hlen hinj hexcl h
    rw [backtrackSearch] at h
    split at h
    · split at h
      · cases h; exact hinj
      · exact absurd h (by simp)
    · cases hsel : selectShard asg doms with
      | none => rw [hsel] at h; exact absurd h (by simp)
      | some k =>
        rw [hsel] at h
        obtain ⟨did, hdidmem, hdid⟩ := findSome?_eq_some_exists h
        cases hprop : propagateConstraints (asg.set k (some did)) doms did sizes devices with
        | none => rw [hprop] at hdid; exact absurd hdid (by simp)
        | some doms2 =>
          rw [hprop] at hdid
          obtain ⟨hk, hknone⟩ := selectShard_spec hsel
          have hklen : k < asg.length := by omega
          have hfresh : ∀ j, asg.getD j none ≠ some did := by
            intro j hj
            exact hexcl k hk hknone j did hj hdidmem
          have hinj2 : InjAsg (asg.set k (some did)) := by
            intro i j d hi hj
            by_cases hik : k = i <;> by_cases hjk : k = j
            · omega
            · exfalso
              rw [← hik, getD_set_self hklen] at hi
              rw [getD_set_ne hjk] at hj
              cases hi
              exact hfresh j hj
            · exfalso
              rw [← hjk, getD_set_self hklen] at hj
              rw [getD_set_ne hik] at hi
              cases hj
              exact hfresh i hi
            · rw [getD_set_ne hik] at hi
              rw [getD_set_ne hjk] at hj
              exact hinj i j d hi hj
          have hexcl2 : ExclAssigned (asg.set k (some did)) doms2 := by
            intro i hi2 hnone j d hj
            have hd2len : doms2.length = doms.length := by
              rw [propagate_some_length hprop, List.length_set]; omega
            have hi3 : i < doms.length := by omega
            have hik : k ≠ i := by
              intro heq
              rw [← heq, getD_set_self hklen] at hnone
              exact Option.noConfusion hnone
            have hnone2 : asg.getD i none = none := by
              rw [getD_set_ne hik] at hnone; exact hnone
            have hdoms2i : doms2.getD i []
                = (doms.getD i []).filter (fun d => d ≠ did) := by
              rw [propagate_eq_some hprop,
                pruned_getD did (by rw [List.length_set]; omega) hi3, if_pos ?_]
              rw [getD_set_ne hik]
              exact hnone2
            rw [hdoms2i]
            intro hmem
            have hmem2 := List.mem_filter.mp hmem
            by_cases hdd : d = did
            · subst hdd
              simp at hmem2
            · have hjk : k ≠ j := by
                intro heq
                rw [← heq, getD_set_self hklen] at hj
                exact hdd (Option.some.inj hj).symm
              rw [getD_set_ne hjk] at hj
              exact hexcl i hi3 hnone2 j d hj hmem2.1
          have hlen2 : (asg.set k (some did)).length = doms2.length := by
            rw [List.length_set, propagate_some_length hprop, List.length_set]
            omega
          exact ih _ _ _ hlen2 hinj2 hexcl2 hdid

theorem replicate_getD_none (n i : ℕ) :
    (List.replicate n (none : Option String)).getD i none = none := by
  rw [List.getD_eq_getElem?_getD, List.getElem?_replicate]
  split <;> rfl

/-- C3 (amended): every complete assignment found by the CSP backtracking
search — whose `_propagate_constraints` enforces the pipeline-mode
one-shard-per-device rule — assigns no device id to two distinct shards. -/
theorem solveCsp_one_shard_per_device (maxDepth num_shards : ℕ)
    (sizes : List Int) (devices : List GPUDevice) (scores : List GPUDeviceScore)
    (a : List (Option String))
    (h : solveCsp maxDepth num_shards sizes devices scores = some a) :
    InjAsg a := by
  unfold solveCsp at h
  split at h
  · exact absurd h (by simp)
  · refine backtrackSearch_inj sizes devices _ _ _ _ ?_ ?_ ?_ h
    · rw [List.length_replicate, computeInitialDomains_length]
    · intro i j d hi _
      rw [replicate_getD_none] at hi
      exact Option.noConfusion hi
    · intro i _ _ j d hj
      rw [replicate_getD_none] at hj
      exact absurd hj (by simp)

/-- C3 counterexample: on the timeout path `solve_placement` returns the
greedy fallback's mapping, which assigns both shards to the same device "a";
the greedy fallback does not enforce one shard per device. -/
theorem solvePlacement_greedy_shares_device :
    solvePlacement true 100 2 [1, 1] [⟨"a", 5⟩] [⟨"a", 0, 0, 0, 0, 0⟩]
        = .ok [some "a", some "a"] ∧
    ¬ InjAsg [some "a", some "a"] := by
  refine ⟨by with_unfolding_all rfl, fun hinj => ?_⟩
  have h01 := hinj 0 1 "a" rfl rfl
  exact absurd h01 (by decide)

/-- C3 witness: a concrete CSP-found assignment with pairwise-distinct
devices. -/
theorem solveCsp_one_shard_witness :
    InjAsg [some "a", some "b", some "c"] :=
  solveCsp_one_shard_per_device 100 3 [4, 4, 4]
    [⟨"a", 20⟩, ⟨"b", 20⟩, ⟨"c", 20⟩]
    [⟨"a", 0, 1, 0, 0, 0⟩, ⟨"b", 0, 1, 0, 0, 0⟩, ⟨"c", 0, 1, 0, 0, 0⟩]
    [some "a", some "b", some "c"] (by with_unfolding_all decide)

/-! ## Device scorer bounds (C4) -/

/-- C4 (amended): every component score of `_compute_device_scores` lies in
[0, 1] (the compute component under nonnegative utilization), and its memory
component is exactly 0 when available memory is below the shard size and
exactly 1 at twice the (nonnegative) shard size.  The aggregator's
`compute_device_scores` memory fit also lies in [0, 1] and is exactly 1 at
twice the estimate, but when available memory is below the estimate it is
`0.3 * available/estimated` — strictly positive for positive available
memory, not 0. -/
theorem deviceScores_bounds (memory_available shard_size : Int)
    (util th t av est : ℚ) :
    (0 ≤ placementMemoryScore memory_available shard_size ∧
      placementMemoryScore memory_available shard_size ≤ 1) ∧
    (memory_available < shard_size →
      placementMemoryScore memory_available shard_size = 0) ∧
    (0 ≤ shard_size → shard_size * 2 ≤ memory_available →
      placementMemoryScore memory_available shard_size = 1) ∧
    (0 ≤ util → 0 ≤ placementComputeScore util ∧ placementComputeScore util ≤ 1) ∧
    (0 ≤ placementThermalScore th t ∧ placementThermalScore th t ≤ 1) ∧
    (0 < est → 0 ≤ av → 0 ≤ aggMemoryScore av est ∧ aggMemoryScore av est ≤ 1) ∧
    (0 < est → est * 2 ≤ av → aggMemoryScore av est = 1) ∧
    (0 < av → av < est → 0 < aggMemoryScore av est) := by
  refine ⟨?_, ?_, ?_, ?_, ?_, ?_, ?_, ?_⟩
  · unfold placementMemoryScore
    split_ifs with h1 h2
    · norm_num
    · norm_num
    · push_neg at h1 h2
      have hsz : (0 : Int) < shard_size := by omega
      have hq1 : (shard_size : ℚ) ≤ (memory_available : ℚ) := by exact_mod_cast h1
      have hq2 : (memory_available : ℚ) < (shard_size : ℚ) * 2 := by exact_mod_cast h2
      have hqz : (0 : ℚ) < (shard_size : ℚ) := by exact_mod_cast hsz
      constructor
      · exact div_nonneg (by linarith) (by linarith)
      · rw [div_le_one (by linarith)]
        linarith
  · intro h
    unfold placementMemoryScore
    rw [if_pos h]
  · intro h0 h2
    unfold placementMemoryScore
    rw [if_neg (by omega), if_pos h2]
  · intro h
    unfold placementComputeScore
    constructor
    · exact le_max_left 0 _
    · apply max_le (by norm_num)
      have : 0 ≤ util / 100 := by positivity
      linarith
  · unfold placementThermalScore
    split_ifs with h1 h2
    · norm_num
    · norm_num
    · push_neg at h1 h2
      constructor
      · apply le_min (by norm_num)
        positivity
      · exact min_le_left 1 _
  · intro hest hav
    unfold aggMemoryScore
    split_ifs with h1
    · constructor
      · apply le_min (by norm_num)
        positivity
      · exact min_le_left 1 _
    · push_neg at h1
      constructor
      · positivity
      · have hr : av / est ≤ 1 := by
          rw [div_le_one hest]
          linarith
        nlinarith
  · intro hest h2
    unfold aggMemoryScore
    rw [if_pos (by nlinarith), min_eq_left]
    rw [le_div_iff (by positivity)]
    linarith
  · intro hav hlt
    unfold aggMemoryScore
    rw [if_neg (by linarith)]
    have : 0 < av / est := div_pos hav (lt_trans hav hlt)
    linarith

/-- C4 counterexample: with available memory 1 strictly below the estimated
requirement 2, the aggregator's memory score is 3/20, not 0 — the "exactly 0
when insufficient" clause fails for `compute_device_scores`. -/
theorem aggMemoryScore_insufficient_not_zero :
    (1 : ℚ) < 2 ∧ aggMemoryScore 1 2 = 3 / 20 ∧ (3 / 20 : ℚ) ≠ 0 := by
  refine ⟨by norm_num, ?_, by norm_num⟩
  norm_num [aggMemoryScore]

/-- C4 witness: concrete memory-score evaluations at both exact bounds. -/
theorem deviceScores_bounds_witness :
    placementMemoryScore 3 4 = 0 ∧ placementMemoryScore 8 4 = 1 :=
  ⟨(deviceScores_bounds 3 4 0 0 0 0 0).2.1 (by decide),
   (deviceScores_bounds 8 4 0 0 0 0 0).2.2.1 (by decide) (by decide)⟩

/-! ## Thermal scores (C5) -/

/-- C5 (amended): `DeviceScorer.score_device`'s temperature penalty is 1.0 up
to 80 °C and `max(0.1, 1 - (t-80)/40)` above it — always at least the 0.1
floor and never zero; but the thermal score of `_compute_device_scores` is
exactly 0 (not a positive floor) whenever the temperature strictly exceeds
the device's throttle threshold, 0.3 when the margin is nonnegative but
below 5 °C, and `min(1, margin/20)` for larger margins. -/
theorem thermal_score_spec (threshold temperature : ℚ) :
    (1 / 10 ≤ tempPenalty temperature) ∧ (0 < tempPenalty temperature) ∧
    (temperature ≤ 80 → tempPenalty temperature = 1) ∧
    (threshold < temperature → placementThermalScore threshold temperature = 0) ∧
    (0 ≤ threshold - temperature → threshold - temperature < 5 →
      placementThermalScore threshold temperature = 3 / 10) ∧
    (5 ≤ threshold - temperature →
      placementThermalScore threshold temperature
        = min 1 ((threshold - temperature) / 20)) := by
  have hfloor : 1 / 10 ≤ tempPenalty temperature := by
    unfold tempPenalty
    split_ifs
    · exact le_max_left _ _
    · norm_num
  refine ⟨hfloor, lt_of_lt_of_le (by norm_num) hfloor, ?_, ?_, ?_, ?_⟩
  · intro h
    unfold tempPenalty
    rw [if_neg (by linarith)]
  · intro h
    unfold placementThermalScore
    rw [if_pos (by linarith)]
  · intro h0 h5
    unfold placementThermalScore
    rw [if_neg (by linarith), if_pos h5]
  · intro h5
    unfold placementThermalScore
    rw [if_neg (by linarith), if_neg (by linarith)]

/-- C5 counterexample: a device 1 °C past its 85 °C throttle threshold gets
thermal score exactly 0 from `_compute_device_scores` — not a positive
floor. -/
theorem placementThermalScore_past_threshold_zero :
    (85 : ℚ) < 86 ∧ placementThermalScore 85 86 = 0 := by
  refine ⟨by norm_num, ?_⟩
  norm_num [placementThermalScore]

/-- C5 witness: the penalty of a cool device is 1 and the placement thermal
score at margin 3 °C is 0.3. -/
theorem thermal_score_spec_witness :
    tempPenalty 70 = 1 ∧ placementThermalScore 85 82 = 3 / 10 :=
  ⟨(thermal_score_spec 85 70).2.2.1 (by norm_num),
   (thermal_score_spec 85 82).2.2.2.2.1 (by norm_num) (by norm_num)⟩

/-! ## Tensor-sharding cycle filter (C9) -/

/-- C9: under tensor sharding `place_instance` keeps exactly the candidate
cycles whose node count divides the model's hidden dimension, and raises a
failure when no candidate survives the divisibility filter. -/
theorem tensorShardingStep_spec (hidden_size : ℕ) (cycles : List (List ℕ)) :
    (∀ kept, tensorShardingStep true hidden_size cycles = .ok kept →
      kept = cycles.filter (fun c => hidden_size % c.length == 0) ∧ kept ≠ []) ∧
    (tensorShardingStep true hidden_size cycles = .error "No tensor sharding found"
      ↔ cycles.filter (fun c => hidden_size % c.length == 0) = []) ∧
    (∀ c, c ∈ tensorCycleFilter hidden_size cycles
      ↔ c ∈ cycles ∧ hidden_size % c.length = 0) := by
  refine ⟨?_, ?_, ?_⟩
  · intro kept h
    unfold tensorShardingStep at h
    rw [if_neg (by simp)] at h
    split_ifs at h with hempty
    · have hk := Except.ok.inj h
      refine ⟨hk.symm, ?_⟩
      rw [← hk]
      intro hnil
      exact absurd (List.isEmpty_iff.mpr hnil) hempty
  · unfold tensorShardingStep
    rw [if_neg (by simp)]
    constructor
    · intro h
      split_ifs at h with hempty
      · exact List.isEmpty_iff.mp (by simpa [tensorCycleFilter] using hempty)
    · intro h
      rw [if_pos (by simp [tensorCycleFilter, h])]
  · intro c
    unfold tensorCycleFilter
    rw [List.mem_filter]
    constructor
    · exact fun ⟨h1, h2⟩ => ⟨h1, by simpa using h2⟩
    · exact fun ⟨h1, h2⟩ => ⟨h1, by simpa using h2⟩

/-- C9 witness: with hidden_size 768 a 5-node cycle is rejected while 4- and
6-node cycles are kept (Scenario E). -/
theorem tensorShardingStep_spec_witness :
    ([[0, 1, 2, 3], [0, 1, 2, 3, 4, 5]] : List (List ℕ))
        = ([[0, 1, 2, 3, 4], [0, 1, 2, 3], [0, 1, 2, 3, 4, 5]] :
            List (List ℕ)).filter (fun c => 768 % c.length == 0) ∧
      ([[0, 1, 2, 3], [0, 1, 2, 3, 4, 5]] : List (List ℕ)) ≠ [] :=
  (tensorShardingStep_spec 768 [[0, 1, 2, 3, 4], [0, 1, 2, 3], [0, 1, 2, 3, 4, 5]]).1
    [[0, 1, 2, 3], [0, 1, 2, 3, 4, 5]] (by rfl)

/-! ## Uniform workload distribution (C6, C10) -/

theorem chunksFromCounts_length {α : Type} :
    ∀ (cs : List ℕ) (items : List α), (chunksFromCounts items cs).length = cs.length := by
  intro cs
  induction cs with
  | nil => intro items; rfl
  | cons c cs ih =>
    intro items
    rw [chunksFromCounts, List.length_cons, List.length_cons, ih]

theorem chunksFromCounts_join {α : Type} :
    ∀ (cs : List ℕ) (items : List α),
      (chunksFromCounts items cs).flatten = items.take cs.sum := by
  intro cs
  induction cs with
  | nil => intro items; simp [chunksFromCounts]
  | cons c cs ih =>
    intro items
    rw [chunksFromCounts, List.flatten_cons, ih, List.sum_cons, List.take_add]

theorem chunksFromCounts_lengths {α : Type} :
    ∀ (cs : List ℕ) (items : List α), cs.sum ≤ items.length →
      (chunksFromCounts items cs).map List.length = cs := by
  intro cs
  induction cs with
  | nil => intro items _; rfl
  | cons c cs ih =>
    intro items hsum
    rw [List.sum_cons] at hsum
    rw [chunksFromCounts, List.map_cons, List.length_take, ih _ (by
      rw [List.length_drop]; omega)]
    congr 1
    omega

theorem chunk_length_le {α : Type} :
    ∀ (cs : List ℕ) (items : List α) (ch : List α),
      ch ∈ chunksFromCounts items cs → ∃ c ∈ cs, ch.length ≤ c := by
  intro cs
  induction cs with
  | nil => intro items ch h; exact absurd h (List.not_mem_nil ch)
  | cons c cs ih =>
    intro items ch h
    rw [chunksFromCounts] at h
    rcases List.mem_cons.mp h with heq | hmem
    · exact ⟨c, List.mem_cons_self _ _, by rw [heq, List.length_take]; omega⟩
    · obtain ⟨c2, hc2, hle⟩ := ih _ _ hmem
      exact ⟨c2, List.mem_cons_of_mem c hc2, hle⟩

theorem sum_q_indicator (q r : ℕ) :
    ∀ n, (((List.range n).map (fun i => q + if i < r then 1 else 0)).sum)
      = n * q + min r n := by
  intro n
  induction n with
  | zero => simp
  | succ n ih =>
    rw [List.range_succ, List.map_append, List.sum_append, ih]
    simp only [List.map_cons, List.map_nil, List.sum_cons, List.sum_nil]
    by_cases h : n < r
    · rw [if_pos h, min_eq_right (Nat.le_of_lt h), min_eq_right h,
        Nat.succ_mul, Nat.succ_eq_add_one]
      ring
    · push_neg at h
      rw [if_neg (by omega), min_eq_left h, min_eq_left (le_trans h (Nat.le_succ n))]
      ring

theorem uniformCounts_sum (len n : ℕ) (hn : 0 < n) :
    (((List.range n).map (uniformCount len n none)).sum) = len := by
  have h1 : (List.range n).map (uniformCount len n none)
      = (List.range n).map (fun i => len / n + if i < len % n then 1 else 0) := by
    apply List.map_congr_left
    intro i _
    simp [uniformCount]
  rw [h1, sum_q_indicator, min_eq_left (le_of_lt (Nat.mod_lt len hn))]
  exact Nat.div_add_mod len n

/-- C6: `distribute_uniform` with a nonempty (duplicate-free) device list and
no cap keeps the devices in order, splits the items into contiguous chunks
whose concatenation is exactly the item list (each item in exactly one
chunk), gives chunk `i` exactly `len/n + (1 if i < len%n else 0)` items — the
remainder going to the first devices — and so any two chunk sizes differ by
at most 1. -/
theorem distribute_uniform_spec {α : Type} (devices : List String)
    (items : List α) (hne : devices ≠ []) (hnd : devices.Nodup) :
    ((distribute_uniform devices items none).map Prod.fst = devices) ∧
    (((distribute_uniform devices items none).map Prod.snd).flatten = items) ∧
    ((distribute_uniform devices items none).map (fun p => p.2.length)
      = (List.range devices.length).map
          (fun i => items.length / devices.length +
            if i < items.length % devices.length then 1 else 0)) ∧
    (∀ p ∈ distribute_uniform devices items none,
      ∀ q ∈ distribute_uniform devices items none,
        p.2.length ≤ q.2.length + 1) := by
  have hn : 0 < devices.length := List.length_pos.mpr hne
  by_cases hitems : items.isEmpty
  · have hitems2 : items = [] := List.isEmpty_iff.mp hitems
    subst hitems2
    unfold distribute_uniform
    rw [if_pos (by simp)]
    refine ⟨?_, ?_, ?_, ?_⟩
    · rw [List.map_map]
      exact List.map_id devices
    · rw [List.map_map]
      have h0 : (devices.map (Prod.snd ∘ fun d => (d, ([] : List α)))).flatten
          = (devices.map fun _ => ([] : List α)).flatten := rfl
      rw [h0, List.map_const', List.flatten_replicate_nil]
    · rw [List.map_map]
      have h1 : devices.map ((fun p : String × List α => p.2.length) ∘
            fun d => (d, ([] : List α)))
          = devices.map fun _ => 0 := rfl
      rw [h1, List.map_const']
      have h2 : (List.range devices.length).map
            (fun i => ([] : List α).length / devices.length +
              if i < ([] : List α).length % devices.length then 1 else 0)
          = (List.range devices.length).map fun _ => 0 := by
        apply List.map_congr_left
        intro i _
        simp
      rw [h2, List.map_const', List.length_range]
    · intro p hp q hq
      obtain ⟨d, _, hd⟩ := List.mem_map.mp hp
      rw [← hd]
      simp
  · have hitems2 : items ≠ [] := fun h => by simp [h] at hitems
    unfold distribute_uniform
    rw [if_neg (by simp [hne, hitems2])]
    have hsum : ((List.range devices.length).map
        (uniformCount items.length devices.length none)).sum = items.length :=
      uniformCounts_sum items.length devices.length hn
    have hclen : (chunksFromCounts items ((List.range devices.length).map
        (uniformCount items.length devices.length none))).length
        = devices.length := by
      rw [chunksFromCounts_length, List.length_map, List.length_range]
    have hlengths : (chunksFromCounts items ((List.range devices.length).map
        (uniformCount items.length devices.length none))).map List.length
        = (List.range devices.length).map
          (uniformCount items.length devices.length none) :=
      chunksFromCounts_lengths _ _ (le_of_eq hsum)
    refine ⟨?_, ?_, ?_, ?_⟩
    · exact List.map_fst_zip _ _ (by rw [hclen])
    · rw [List.map_snd_zip _ _ (by rw [hclen]), chunksFromCounts_join, hsum,
        List.take_length]
    · have : (devices.zip (chunksFromCounts items ((List.range devices.length).map
          (uniformCount items.length devices.length none)))).map
            (fun p => p.2.length)
          = ((devices.zip (chunksFromCounts items ((List.range devices.length).map
              (uniformCount items.length devices.length none)))).map Prod.snd).map
              List.length := by
        rw [List.map_map]
        rfl
      rw [this, List.map_snd_zip _ _ (by rw [hclen]), hlengths]
      apply List.map_congr_left
      intro i _
      simp [uniformCount]
    · intro p hp q hq
      have hmemlen : ∀ x ∈ devices.zip (chunksFromCounts items
          ((List.range devices.length).map
            (uniformCount items.length devices.length none))),
          x.2.length = items.length / devices.length ∨
          x.2.length = items.length / devices.length + 1 := by
        intro x hx
        have hx2 : x.2 ∈ chunksFromCounts items ((List.range devices.length).map
            (uniformCount items.length devices.length none)) :=
          (List.of_mem_zip hx).2
        have : x.2.length ∈ (chunksFromCounts items ((List.range devices.length).map
            (uniformCount items.length devices.length none))).map List.length :=
          List.mem_map_of_mem List.length hx2
        rw [hlengths] at this
        obtain ⟨i, _, hi⟩ := List.mem_map.mp this
        simp only [uniformCount] at hi
        split_ifs at hi with hir
        · right; omega
        · left; omega
      rcases hmemlen p hp with h1 | h1 <;> rcases hmemlen q hq with h2 | h2 <;> omega

/-- C6 witness: two devices and three items — chunks [1, 2] and [3], sizes
2 and 1. -/
theorem distribute_uniform_spec_witness :
    ((distribute_uniform ["x", "y"] [1, 2, 3] none).map Prod.fst = ["x", "y"]) ∧
    (((distribute_uniform ["x", "y"] [1, 2, 3] none).map Prod.snd).flatten
      = [1, 2, 3]) ∧
    ((distribute_uniform ["x", "y"] [1, 2, 3] none).map (fun p => p.2.length)
      = (List.range (["x", "y"] : List String).length).map
          (fun i => ([1, 2, 3] : List ℕ).length / (["x", "y"] : List String).length +
            if i < ([1, 2, 3] : List ℕ).length % (["x", "y"] : List String).length
            then 1 else 0)) ∧
    (∀ p ∈ distribute_uniform ["x", "y"] [1, 2, 3] none,
      ∀ q ∈ distribute_uniform ["x", "y"] [1, 2, 3] none,
        p.2.length ≤ q.2.length + 1) :=
  distribute_uniform_spec ["x", "y"] [1, 2, 3] (by decide) (by decide)

/-- C10: with a positive cap `m`, every device's chunk holds at most `m`
items; when `m * len(devices)` is below the item count the chunks are
exactly the first `n*m` items in order — the excess items appear in no chunk
and no error is raised (the improved variant returns the same mapping). -/
theorem distribute_uniform_cap_spec {α : Type} (devices : List String)
    (items : List α) (m : ℕ) (hne : devices ≠ []) (hnd : devices.Nodup)
    (hm : 1 ≤ m) :
    (∀ p ∈ distribute_uniform devices items (some m), p.2.length ≤ m) ∧
    (devices.length * m < items.length →
      ((distribute_uniform devices items (some m)).map Prod.snd).flatten
        = items.take (devices.length * m)) ∧
    (distribute_uniform_improved devices items (some m)
      = .ok (distribute_uniform devices items (some m))) := by
  have hn : 0 < devices.length := List.length_pos.mpr hne
  refine ⟨?_, ?_, ?_⟩
  · intro p hp
    unfold distribute_uniform at hp
    split_ifs at hp with hguard
    · obtain ⟨d, _, hd⟩ := List.mem_map.mp hp
      rw [← hd]
      simp
    · have hp2 : p.2 ∈ chunksFromCounts items ((List.range devices.length).map
          (uniformCount items.length devices.length (some m))) :=
        (List.of_mem_zip hp).2
      obtain ⟨c, hc, hle⟩ := chunk_length_le _ _ _ hp2
      obtain ⟨i, _, hi⟩ := List.mem_map.mp hc
      simp only [uniformCount] at hi
      omega
  · intro hlt
    have hitems : ¬ items.isEmpty := by
      intro h
      rw [List.isEmpty_iff.mp h] at hlt
      simp at hlt
    unfold distribute_uniform
    have hguard : ¬ ((devices.isEmpty || items.isEmpty) = true) := by
      simp only [Bool.or_eq_true, List.isEmpty_iff]
      push_neg
      exact ⟨hne, fun h => hitems (by simp [h])⟩
    rw [if_neg hguard]
    have hq : m ≤ items.length / devices.length :=
      (Nat.le_div_iff_mul_le hn).mpr (le_of_lt (Nat.mul_comm devices.length m ▸ hlt))
    have hcounts : (List.range devices.length).map
        (uniformCount items.length devices.length (some m))
        = List.replicate devices.length m := by
      have h1 : (List.range devices.length).map
            (uniformCount items.length devices.length (some m))
          = (List.range devices.length).map fun _ => m := by
        apply List.map_congr_left
        intro i _
        simp only [uniformCount]
        split_ifs <;> omega
      rw [h1, List.map_const', List.length_range]
    have hsum : ((List.range devices.length).map
        (uniformCount items.length devices.length (some m))).sum
        = devices.length * m := by
      rw [hcounts, List.sum_replicate, smul_eq_mul]
    rw [List.map_snd_zip _ _ (by
        rw [chunksFromCounts_length, List.length_map, List.length_range]),
      chunksFromCounts_join, hsum]
  · unfold distribute_uniform_improved
    rw [if_neg (by simp [hne])]
    show (if m = 0 then Except.error "max_per_device must be positive"
      else .ok (distribute_uniform devices items (some m))) = _
    rw [if_neg (by omega)]

/-- C10 witness: two devices, cap 1, three items — the chunks are `[1]` and
`[2]`; item 3 is silently dropped. -/
theorem distribute_uniform_cap_spec_witness :
    (∀ p ∈ distribute_uniform ["x", "y"] [1, 2, 3] (some 1), p.2.length ≤ 1) ∧
    ((["x", "y"] : List String).length * 1 < ([1, 2, 3] : List ℕ).length →
      ((distribute_uniform ["x", "y"] [1, 2, 3] (some 1)).map Prod.snd).flatten
        = ([1, 2, 3] : List ℕ).take ((["x", "y"] : List String).length * 1)) ∧
    (distribute_uniform_improved ["x", "y"] [1, 2, 3] (some 1)
      = .ok (distribute_uniform ["x", "y"] [1, 2, 3] (some 1))) :=
  distribute_uniform_cap_spec ["x", "y"] [1, 2, 3] 1 (by decide) (by decide)
    (by decide)

/-! ## Capacity-weighted workload distribution (C7) -/

theorem insertAsc_perm (x : String) (l : List String) :
    List.Perm (insertAsc x l) (x :: l) := by
  induction l with
  | nil => simp [insertAsc]
  | cons y ys ih =>
    simp only [insertAsc]
    split
    · exact List.Perm.refl _
    · exact List.Perm.trans (List.Perm.cons y ih) (List.Perm.swap x y ys)

theorem sortStrings_perm (l : List String) :
    List.Perm (sortStrings l) l := by
  induction l with
  | nil => exact List.Perm.refl _
  | cons y ys ih =>
    exact List.Perm.trans (insertAsc_perm y (sortStrings ys)) (List.Perm.cons y ih)

theorem mem_sortStrings (l : List String) (x : String) :
    x ∈ sortStrings l ↔ x ∈ l :=
  (sortStrings_perm l).mem_iff

theorem foldl_max_mem :
    ∀ (rest : List (String × ℚ)) (b : String × ℚ),
      rest.foldl (fun best q => if best.2 < q.2 then q else best) b = b ∨
      rest.foldl (fun best q => if best.2 < q.2 then q else best) b ∈ rest := by
  intro rest
  induction rest with
  | nil => intro b; left; rfl
  | cons x xs ih =>
    intro b
    rw [List.foldl_cons]
    rcases ih (if b.2 < x.2 then x else b) with heq | hmem
    · rw [heq]
      split_ifs
      · right; exact List.mem_cons_self _ _
      · left; rfl
    · right; exact List.mem_cons_of_mem x hmem

theorem largestKey_mem {caps : List (String × ℚ)} (h : caps ≠ []) :
    largestKey caps ∈ caps.map Prod.fst := by
  cases caps with
  | nil => exact absurd rfl h
  | cons p rest =>
    simp only [largestKey]
    rcases foldl_max_mem rest p with heq | hmem
    · rw [heq]
      exact List.mem_map_of_mem Prod.fst (List.mem_cons_self p rest)
    · exact List.mem_map_of_mem Prod.fst (List.mem_cons_of_mem p hmem)

theorem extendAt_flatten_perm {α : Type} :
    ∀ (r : List (String × List α)) (k : String) (ext : List α),
      k ∈ r.map Prod.fst →
      List.Perm (((extendAt r k ext).map Prod.snd).flatten)
        ((r.map Prod.snd).flatten ++ ext) := by
  intro r
  induction r with
  | nil => intro k ext h; exact absurd h (by simp)
  | cons p rest ih =>
    intro k ext h
    obtain ⟨k', ch⟩ := p
    rw [extendAt]
    split_ifs with hk
    · simp only [List.map_cons, List.flatten_cons]
      have hcomm := List.Perm.append_left ch
        (@List.perm_append_comm _ ext ((rest.map Prod.snd).flatten))
      rw [← List.append_assoc, ← List.append_assoc] at hcomm
      exact hcomm
    · simp only [List.map_cons, List.flatten_cons]
      have hk2 : k ∈ rest.map Prod.fst := by
        rw [List.map_cons] at h
        rcases List.mem_cons.mp h with h2 | h2
        · exact absurd h2.symm hk
        · exact h2
      rw [List.append_assoc]
      exact List.Perm.append_left ch (ih k ext hk2)

/-- C7 (amended): with a nonempty (duplicate-free-keyed) capacity dict and a
nonempty item list, the hardened `distribute_by_capacity` rejects any
negative weight and an all-zero total; on success every item is assigned
exactly once (the chunks are a permutation-partition of the items); but a
zero-weight device's per-device count is `max(1, int(n*0/total))` = 1, so it
receives one item — not zero items — whenever items remain at its turn. -/
theorem distribute_by_capacity_spec {α : Type} (caps : List (String × ℚ))
    (items : List α) (hne : caps ≠ []) (hitems : items ≠ [])
    (hnd : (caps.map Prod.fst).Nodup) :
    ((∃ p ∈ caps, p.2 < 0) →
      distribute_by_capacity_improved caps items
        = .error "All capacity values must be non-negative") ∧
    ((∀ p ∈ caps, ¬ p.2 < 0) → (caps.map Prod.snd).sum ≤ 0 →
      distribute_by_capacity_improved caps items
        = .error "Total capacity must be positive") ∧
    (∀ r, distribute_by_capacity_improved caps items = .ok r →
      List.Perm ((r.map Prod.snd).flatten) items) ∧
    (∀ k, capLookup caps k = 0 →
      capCount caps ((caps.map Prod.snd).sum) items.length k = 1) := by
  have hguard : ¬ ((caps.isEmpty || items.isEmpty) = true) := by
    simp only [Bool.or_eq_true, List.isEmpty_iff]
    push_neg
    exact ⟨hne, hitems⟩
  refine ⟨?_, ?_, ?_, ?_⟩
  · intro ⟨p, hp, hneg⟩
    unfold distribute_by_capacity_improved
    rw [if_neg hguard, if_pos (by
      rw [List.any_eq_true]
      exact ⟨p, hp, by simpa using hneg⟩)]
  · intro hnoneg hsum
    unfold distribute_by_capacity_improved
    rw [if_neg hguard, if_neg (by
      rw [List.any_eq_true]
      push_neg
      intro p hp
      simpa using hnoneg p hp), if_pos hsum]
  · intro r h
    unfold distribute_by_capacity_improved at h
    rw [if_neg hguard] at h
    split_ifs at h
    have hr : r = distribute_by_capacity_core caps items :=
      (Except.ok.inj h).symm
    subst hr
    unfold distribute_by_capacity_core
    have hkeys : largestKey caps ∈
        ((sortStrings (caps.map Prod.fst)).zip
          (chunksFromCounts items ((sortStrings (caps.map Prod.fst)).map
            (capCount caps ((caps.map Prod.snd).sum) items.length)))).map
          Prod.fst := by
      rw [List.map_fst_zip _ _ (by
        rw [chunksFromCounts_length, List.length_map])]
      exact (mem_sortStrings _ _).mpr (largestKey_mem hne)
    have hperm := extendAt_flatten_perm _ (largestKey caps)
      (items.drop ((sortStrings (caps.map Prod.fst)).map
        (capCount caps ((caps.map Prod.snd).sum) items.length)).sum) hkeys
    have heq : (((((sortStrings (caps.map Prod.fst)).zip
          (chunksFromCounts items ((sortStrings (caps.map Prod.fst)).map
            (capCount caps ((caps.map Prod.snd).sum) items.length)))).map
          Prod.snd).flatten)
        ++ items.drop ((sortStrings (caps.map Prod.fst)).map
            (capCount caps ((caps.map Prod.snd).sum) items.length)).sum)
        = items := by
      rw [List.map_snd_zip _ _ (by
        rw [chunksFromCounts_length, List.length_map]),
        chunksFromCounts_join]
      exact List.take_append_drop _ items
    refine List.Perm.trans hperm ?_
    rw [heq]
  · intro k hk
    unfold capCount
    rw [hk]
    simp

/-- C7 counterexample: device "a" has capacity weight 0 yet receives item 0 —
`count = max(1, int(len*0/total)) = 1` hands a zero-weight device one item,
contradicting "a device whose capacity weight is zero receives no items". -/
theorem distribute_by_capacity_zero_weight_gets_item :
    distribute_by_capacity_improved [("a", 0), ("b", 1)] [0, 1]
        = .ok [("a", [0]), ("b", [1])] ∧
    capLookup [("a", 0), ("b", 1)] "a" = 0 ∧
    ([0] : List ℕ) ≠ [] := by
  refine ⟨by with_unfolding_all rfl, by with_unfolding_all decide, by decide⟩

/-- C7 witness: capacities 1 and 2 over three items; every item lands in
exactly one chunk. -/
theorem distribute_by_capacity_spec_witness :
    List.Perm ((([("c", [10]), ("d", [20, 30])] :
      List (String × List ℕ)).map Prod.snd).flatten) [10, 20, 30] :=
  (distribute_by_capacity_spec [("c", 1), ("d", 2)] [10, 20, 30]
    (by decide) (by decide) (by decide)).2.2.1
    [("c", [10]), ("d", [20, 30])] (by with_unfolding_all rfl)

/-! ## Telemetry recording with validation (C8) -/

theorem setAssoc_find? {β : Type} :
    ∀ (l : List (String × β)) (k : String) (v : β),
      ((setAssoc l k v).find? (fun p => p.1 == k)).map Prod.snd = some v := by
  intro l
  induction l with
  | nil =>
    intro k v
    simp [setAssoc, List.find?]
  | cons p rest ih =>
    intro k v
    rw [setAssoc]
    split_ifs with hp
    · simp [List.find?]
    · rw [List.find?_cons_of_neg _ (by simpa using hp)]
      exact ih k v

theorem lookupAssoc_setAssoc {β : Type} (l : List (String × β)) (k : String)
    (v d : β) : lookupAssoc (setAssoc l k v) k d = v := by
  unfold lookupAssoc
  rw [setAssoc_find?]
  rfl

theorem historyAppend_length_le (mh : ℕ) (h : List GPUMetrics) (m : GPUMetrics) :
    (historyAppend mh h m).length ≤ mh := by
  unfold historyAppend
  split_ifs with hlt
  · rw [List.length_drop]
    omega
  · omega

theorem validateMetrics_none {registered : List String} {m : GPUMetrics}
    (h : validateMetrics registered m = none) :
    registered.contains m.device_id = true ∧
    0 ≤ m.compute_utilization_percent ∧ m.compute_utilization_percent ≤ 100 ∧
    0 ≤ m.memory_used_bytes ∧ 0 < m.memory_total_bytes ∧
    m.memory_used_bytes ≤ m.memory_total_bytes ∧
    -5463 / 20 ≤ m.temperature_celsius := by
  unfold validateMetrics at h
  split_ifs at h with h1 h2 h3 h4 h5 h6
  push_neg at h2
  refine ⟨?_, h2.1, h2.2, by omega, by omega, by omega, by linarith⟩
  cases hcont : registered.contains m.device_id with
  | true => rfl
  | false => exact absurd hcont (by simpa using h1)

/-- C8: `GPUClusteringManagerImproved.record_metrics` rejects every snapshot
violating a telemetry invariant (unregistered device id, utilization outside
[0, 100], negative used memory, used above total, temperature below absolute
zero), and since every check precedes the collector update, a rejected
snapshot leaves the current metrics and the bounded history exactly
unchanged; a snapshot passing validation is recorded: the current pointer is
updated and the device's history gets the snapshot appended under the
`max_history` bound, so later valid snapshots are still recorded. -/
theorem record_metrics_spec (st : TelemetryState) (m : GPUMetrics) :
    ((st.registered.contains m.device_id = false ∨
        m.compute_utilization_percent < 0 ∨ 100 < m.compute_utilization_percent ∨
        m.memory_used_bytes < 0 ∨ m.memory_total_bytes < m.memory_used_bytes ∨
        m.temperature_celsius < -5463 / 20) →
      (record_metrics_improved st m).1 = st ∧
        (record_metrics_improved st m).2.isSome = true) ∧
    (validateMetrics st.registered m = none →
      (record_metrics_improved st m).2 = none ∧
      (record_metrics_improved st m).1.current = setAssoc st.current m.device_id m ∧
      (record_metrics_improved st m).1.history = setAssoc st.history m.device_id
        (historyAppend st.max_history (lookupAssoc st.history m.device_id []) m) ∧
      lookupAssoc (record_metrics_improved st m).1.history m.device_id []
        = historyAppend st.max_history (lookupAssoc st.history m.device_id []) m ∧
      (lookupAssoc (record_metrics_improved st m).1.history m.device_id []).length
        ≤ st.max_history) := by
  constructor
  · intro hviol
    cases hv : validateMetrics st.registered m with
    | some e =>
      unfold record_metrics_improved
      rw [hv]
      exact ⟨rfl, rfl⟩
    | none =>
      exfalso
      obtain ⟨hc, hu1, hu2, hm1, hm2, hm3, ht⟩ := validateMetrics_none hv
      rcases hviol with h | h | h | h | h | h
      · rw [hc] at h; exact Bool.noConfusion h
      · linarith
      · linarith
      · omega
      · omega
      · linarith
  · intro hv
    unfold record_metrics_improved
    rw [hv]
    unfold collectorRecord
    refine ⟨rfl, rfl, rfl, ?_, ?_⟩
    · exact lookupAssoc_setAssoc _ _ _ _
    · rw [lookupAssoc_setAssoc]
      exact historyAppend_length_le _ _ _

/-- C8 witness: a snapshot with 150 % utilization is rejected and leaves the
state untouched. -/
theorem record_metrics_spec_witness :
    (record_metrics_improved ⟨["g"], [], [], 100⟩ ⟨"g", 0, 1, 150, 20⟩).1
        = ⟨["g"], [], [], 100⟩ ∧
    (record_metrics_improved ⟨["g"], [], [], 100⟩ ⟨"g", 0, 1, 150, 20⟩).2.isSome
        = true :=
  (record_metrics_spec ⟨["g"], [], [], 100⟩ ⟨"g", 0, 1, 150, 20⟩).1
    (Or.inr (Or.inr (Or.inl (by norm_num))))

end Exo
